import Mathlib

/-!
Verification development for the citybike cleaning and analytics core
(`citybike/numerical.py` and `citybike/analyzer.py`).

Modelling conventions:
* Python floats are modelled as exact rationals (`ℚ`).  Every arithmetic
  step the verified claims talk about (quartiles with linear
  interpolation, IQR bounds, sums, ratios) is exact on the inputs
  considered, so rational arithmetic is a faithful model.
* A possibly-missing cell (NaN for floats, NaT for timestamps) is
  `Option ℚ` with `none` standing for NaN/NaT.  numpy/pandas comparison
  semantics (`NaN < x` is `False`, `NaN` is skipped by sums, means,
  `max`, `min`, `nunique` and excluded from group keys) are reproduced
  on this representation.
* Timestamps are counted in minutes, so `pd.Timedelta.total_seconds()/60`
  becomes ordinary subtraction and `Timedelta.days` becomes
  `⌊difference / 1440⌋`.
* A raw CSV cell that `pd.to_datetime(..., errors="coerce")` or
  `pd.to_numeric(..., errors="coerce")` would fail to parse is modelled
  directly by its coercion result `none`, so the explicit coercion steps
  of the Python code are identity maps on this representation.
* A Python function that can raise is modelled with an `Option` result,
  `none` standing for the raised exception.
-/

namespace CityBike

/-- A float or timestamp cell: `none` models NaN / NaT. -/
abbrev Val := Option ℚ

/-- numpy/pandas elementwise `<`: any comparison involving NaN is false. -/
def vlt (a b : Val) : Bool :=
  match a, b with
  | some x, some y => decide (x < y)
  | _, _ => false

/-- numpy/pandas elementwise `>`: any comparison involving NaN is false. -/
def vgt (a b : Val) : Bool :=
  match a, b with
  | some x, some y => decide (y < x)
  | _, _ => false

/-- Subtraction with NaN/NaT propagation. -/
def vsub (a b : Val) : Val :=
  match a, b with
  | some x, some y => some (x - y)
  | _, _ => none

/-- `np.percentile(data, p)` with the default linear-interpolation method:
sort the data, take the virtual index `h = (n-1)·p/100` and interpolate
between the neighbouring order statistics.  `np.percentile` raises
(`IndexError`) on an empty array, modelled by `none`. -/
def percentile (data : List ℚ) (p : ℚ) : Option ℚ :=
  match data.insertionSort (fun a b => a ≤ b) with
  | [] => none
  | x :: xs =>
    let s := x :: xs
    let n := s.length
    let pos : ℚ := ((n : ℚ) - 1) * p / 100
    let i : ℕ := (⌊pos⌋).toNat
    let frac : ℚ := pos - (i : ℚ)
    let lo := s.getD i x
    let hi := s.getD (i + 1) lo
    some (lo + frac * (hi - lo))

/-- The bounds dictionary returned by `OutlierDetection.iqr_outliers`. -/
structure IqrBounds where
  q1 : ℚ
  q3 : ℚ
  iqr : ℚ
  lower_bound : ℚ
  upper_bound : ℚ
deriving DecidableEq

/-- `OutlierDetection.iqr_outliers` (`numerical.py`): drop NaNs, take the
25th/75th linear-interpolation percentiles, bounds `q1 - m·iqr` and
`q3 + m·iqr`, and flag strictly-outside entries; a NaN entry compares
false on both sides and so is `false` in the mask.  `none` models the
`IndexError` that `np.percentile` raises when the non-NaN data is empty. -/
def iqr_outliers (data : List Val) (iqr_multiplier : ℚ) :
    Option (List Bool × IqrBounds) :=
  let clean_data := data.filterMap id
  match percentile clean_data 25, percentile clean_data 75 with
  | some q1, some q3 =>
    let iqr := q3 - q1
    let lower_bound := q1 - iqr_multiplier * iqr
    let upper_bound := q3 + iqr_multiplier * iqr
    some (data.map (fun v => vlt v (some lower_bound) || vgt v (some upper_bound)),
          ⟨q1, q3, iqr, lower_bound, upper_bound⟩)
  | _, _ => none

/-! ### The three tables

A row keeps each cell in its coerced form: `Option String` for id /
categorical columns (`none` = missing), `Val` for numeric and timestamp
columns (`none` = the NaN/NaT that `errors="coerce"` produces for a
missing or unparsable cell). -/

/-- A row of the trips table (columns of `trips.csv`). -/
structure TripRow where
  trip_id : Option String
  user_id : Option String
  user_type : Option String
  bike_id : Option String
  bike_type : Option String
  start_station_id : Option String
  end_station_id : Option String
  start_time : Val
  end_time : Val
  duration_minutes : Val
  distance_km : Val
  status : Option String
deriving DecidableEq

/-- A row of the stations table. -/
structure StationRow where
  station_id : Option String
  station_name : Option String
  capacity : Val
  latitude : Val
  longitude : Val
deriving DecidableEq

/-- A row of the maintenance table. -/
structure MaintRow where
  record_id : Option String
  bike_id : Option String
  bike_type : Option String
  date : Val
  maintenance_type : Option String
  cost : Val
  description : Option String
deriving DecidableEq

/-- Helper for `pd.DataFrame.drop_duplicates(subset=[key], keep="first")`:
`seen` accumulates the key values already kept.  pandas treats NaN keys as
equal to each other, matching equality on `Option String`. -/
def dropDupAux {α : Type} (key : α → Option String) :
    List (Option String) → List α → List α
  | _, [] => []
  | seen, x :: xs =>
    if key x ∈ seen then dropDupAux key seen xs
    else x :: dropDupAux key (key x :: seen) xs

/-- `df.drop_duplicates(subset=[key], keep="first")`. -/
def drop_duplicates {α : Type} (key : α → Option String) (l : List α) : List α :=
  dropDupAux key [] l

/-! ### `DataCleaner.clean_trips_csv` (`analyzer.py`), step by step. -/

/-- `df = df[~(df["end_time"] < df["start_time"])]`; a NaT on either side
compares false, so such rows are kept. -/
def dropInvalidTimes (df : List TripRow) : List TripRow :=
  df.filter (fun r => !vlt r.end_time r.start_time)

/-- Row completeness on the five critical id columns. -/
def rowIdsOk (r : TripRow) : Bool :=
  r.trip_id.isSome && r.user_id.isSome && r.bike_id.isSome &&
    r.start_station_id.isSome && r.end_station_id.isSome

/-- `df.dropna(subset=["trip_id","user_id","bike_id","start_station_id","end_station_id"])`. -/
def dropnaIds (df : List TripRow) : List TripRow :=
  df.filter rowIdsOk

/-- The per-row effect of
`df.loc[mask, "duration_minutes"] = (end - start).total_seconds() / 60`
on the rows where `duration_minutes` is NaN (timestamps are already in
minutes, so the division by 60 is absorbed). -/
def fillDurRow (r : TripRow) : TripRow :=
  match r.duration_minutes with
  | some _ => r
  | none => { r with duration_minutes := vsub r.end_time r.start_time }

/-- The missing-duration repair step of `clean_trips_csv`. -/
def fillDuration (df : List TripRow) : List TripRow :=
  df.map fillDurRow

/-- A numeric duration `≥ 1`. -/
def rowDurOk (r : TripRow) : Bool :=
  match r.duration_minutes with
  | some d => decide (1 ≤ d)
  | none => false

/-- `df.dropna(subset=["duration_minutes"])` followed by
`df = df[df["duration_minutes"] >= 1]`: a NaN duration fails the `>= 1`
comparison as well, so the two steps keep exactly the rows with a
numeric duration `≥ 1`. -/
def dropBadDuration (df : List TripRow) : List TripRow :=
  df.filter rowDurOk

/-- `pd.Series.mean()` over the non-NaN entries; NaN (`none`) on an
all-NaN or empty column. -/
def listMeanQ (l : List ℚ) : Val :=
  match l with
  | [] => none
  | _ => some (l.sum / l.length)

/-- `mean_distance = df["distance_km"].mean()` followed by
`df["distance_km"].fillna(mean_distance)`.  When every distance is NaN the
mean is NaN and the fill leaves the column unchanged, exactly as in
pandas.  (The `if df["distance_km"].isna().any()` guard in the source
only skips work; the result is the same.) -/
def fillDistRow (mean_distance : Val) (r : TripRow) : TripRow :=
  match r.distance_km with
  | some _ => r
  | none => { r with distance_km := mean_distance }

/-- The missing-distance repair step of `clean_trips_csv` (see
`fillDistRow`). -/
def fillDistance (df : List TripRow) : List TripRow :=
  df.map (fillDistRow (listMeanQ (df.filterMap (fun r => r.distance_km))))

/-- `df["status"].isin({"completed","cancelled"}) | df["status"].isna()`. -/
def validStatus (s : Option String) : Bool :=
  match s with
  | none => true
  | some v => decide (v = "completed") || decide (v = "cancelled")

/-- The status-validation filter of `clean_trips_csv`. -/
def filterStatus (df : List TripRow) : List TripRow :=
  df.filter (fun r => validStatus r.status)

/-- `DataCleaner.clean_trips_csv`: the datetime/numeric coercions are
identity on the coerced representation; then the five filter/repair
steps in source order. -/
def clean_trips_csv (df : List TripRow) : List TripRow :=
  filterStatus (fillDistance (dropBadDuration (fillDuration
    (dropnaIds (drop_duplicates (fun r => r.trip_id) (dropInvalidTimes df))))))

/-! ### `DataCleaner.clean_stations_csv`. -/

/-- `df.dropna(subset=["station_id","station_name","capacity","latitude","longitude"])`. -/
def stationComplete (r : StationRow) : Bool :=
  r.station_id.isSome && r.station_name.isSome && r.capacity.isSome &&
    r.latitude.isSome && r.longitude.isSome

/-- `(df["latitude"] >= -90) & (df["latitude"] <= 90) & (df["longitude"] >= -180)
& (df["longitude"] <= 180)`; NaN coordinates fail every comparison. -/
def coordsValid (r : StationRow) : Bool :=
  match r.latitude, r.longitude with
  | some la, some lo =>
    decide (-90 ≤ la) && decide (la ≤ 90) && decide (-180 ≤ lo) && decide (lo ≤ 180)
  | _, _ => false

/-- `df = df[df["capacity"] > 0]`; a NaN capacity fails the comparison. -/
def capacityPos (r : StationRow) : Bool :=
  match r.capacity with
  | some c => decide (0 < c)
  | none => false

/-- `DataCleaner.clean_stations_csv`: numeric coercions (identity here),
de-duplicate on `station_id` keeping the first occurrence, drop
incomplete rows, validate coordinates, validate capacity. -/
def clean_stations_csv (df : List StationRow) : List StationRow :=
  (((drop_duplicates (fun r => r.station_id) df).filter stationComplete).filter
    coordsValid).filter capacityPos

/-! ### `DataCleaner.clean_maintenance_csv`. -/

/-- `df.dropna(subset=["record_id","bike_id","date","maintenance_type","cost"])`. -/
def maintComplete (r : MaintRow) : Bool :=
  r.record_id.isSome && r.bike_id.isSome && r.date.isSome &&
    r.maintenance_type.isSome && r.cost.isSome

/-- `df["maintenance_type"].isin(valid_types)` for the closed set of five
maintenance types. -/
def validMaintType (s : Option String) : Bool :=
  match s with
  | some v =>
    decide (v = "tire_repair") || decide (v = "brake_adjustment") ||
      decide (v = "battery_replacement") || decide (v = "chain_lubrication") ||
      decide (v = "general_inspection")
  | none => false

/-- `df = df[df["cost"] >= 0]`; a NaN cost fails the comparison. -/
def costNonneg (r : MaintRow) : Bool :=
  match r.cost with
  | some c => decide (0 ≤ c)
  | none => false

/-- `DataCleaner.clean_maintenance_csv`: date/cost coercions (identity
here), de-duplicate on `record_id` keeping first, drop incomplete rows,
validate the maintenance type, validate the cost. -/
def clean_maintenance_csv (df : List MaintRow) : List MaintRow :=
  (((drop_duplicates (fun r => r.record_id) df).filter maintComplete).filter
    (fun r => validMaintType r.maintenance_type)).filter costNonneg

/-! ### Numeric helpers shared by the analytics queries. -/

/-- Floor of a rational, computably (`⌊q⌋`; proved equal to `Int.floor`
below). -/
def ratFloor (q : ℚ) : ℤ := q.num / q.den

theorem ratFloor_eq_floor (q : ℚ) : ratFloor q = ⌊q⌋ := (Rat.floor_def).symm

/-- `pd.Series.max()`: maximum of the non-NaN entries, NaN if none. -/
def listMaxQ (l : List ℚ) : Val :=
  match l with
  | [] => none
  | x :: xs => some (xs.foldl max x)

/-- `pd.Series.min()`: minimum of the non-NaN entries, NaN if none. -/
def listMinQ (l : List ℚ) : Val :=
  match l with
  | [] => none
  | x :: xs => some (xs.foldl min x)

/-- Python `round(x, 2)`: round to the nearest multiple of 1/100, ties to
the even multiple (banker's rounding). -/
def roundHalfEven (q : ℚ) : ℤ :=
  let n := ratFloor q
  let r := q - n
  if r < 1/2 then n
  else if 1/2 < r then n + 1
  else if n % 2 = 0 then n else n + 1

/-- Python `round(x, 2)`. -/
def pyRound2 (x : ℚ) : ℚ := (roundHalfEven (100 * x) : ℚ) / 100

/-- `pd.Series.nunique()`: number of distinct non-NaN values. -/
def nuniqueStr (l : List (Option String)) : ℕ := (l.filterMap id).dedup.length

/-! ### `BikeShareSystem.q4_peak_day`.

`dt.date` of a timestamp in minutes is the day number `⌊t/1440⌋`;
`dt.day_name()` is determined by the day number (day 0, 1970-01-01, is a
Thursday).  `groupby(["date","day_of_week"]).size()` sorts its keys
ascending (and since the weekday is a function of the date, grouping by
the pair is grouping by the date); `idxmax` then picks the first key
attaining the maximal count, i.e. the earliest such date.  Rows with NaT
`start_time` get a NaN key and are dropped by `groupby`. -/

/-- Calendar date (day number) of a timestamp in minutes. -/
def dateOf (t : ℚ) : ℤ := ratFloor (t / 1440)

/-- `Timestamp.day_name()` as a function of the day number. -/
def dayName (d : ℤ) : String :=
  match (d % 7).toNat with
  | 0 => "Thursday"
  | 1 => "Friday"
  | 2 => "Saturday"
  | 3 => "Sunday"
  | 4 => "Monday"
  | 5 => "Tuesday"
  | _ => "Wednesday"

/-- The dates of the trips with a parsed `start_time`, in table order. -/
def tripDates (trips : List TripRow) : List ℤ :=
  trips.filterMap (fun r => r.start_time.map dateOf)

/-- Result record of `q4_peak_day`. -/
structure Q4Result where
  peak_date : Option ℤ
  peak_day : Option String
  trips : ℕ
deriving DecidableEq

/-- `BikeShareSystem.q4_peak_day`. -/
def q4_peak_day (trips : List TripRow) : Q4Result :=
  let dates := tripDates trips
  match dates.dedup.insertionSort (fun a b => a ≤ b) with
  | [] => ⟨none, none, 0⟩
  | k :: ks =>
    let best := ks.foldl (fun b d => if dates.count b < dates.count d then d else b) k
    ⟨some best, some (dayName best), dates.count best⟩

/-! ### `BikeShareSystem.q6_bike_utilization`. -/

/-- Result record of `q6_bike_utilization`.  `date_range_days` is an
integer when the start-time column has a parsed entry and NaN (from
`pd.NaT.days`) otherwise. -/
structure Q6Result where
  utilization_percentage : ℚ
  bikes_in_fleet : ℕ
  date_range_days : Option ℤ
deriving DecidableEq

/-- `BikeShareSystem.q6_bike_utilization`: `bikes` is
`trips["bike_id"].nunique()`; `date_range` is
`(max(start_time) - min(start_time)).days + 1` (NaN when the column has
no parsed entry, since `pd.NaT.days` is NaN — then
`total_possible_minutes` is NaN, the `> 0` guard fails and the rate is
0); the rate is rounded with Python `round(_, 2)`.
`q6_dateRange` is the `date_range` intermediate. -/
def q6_dateRange (trips : List TripRow) : Option ℤ :=
  match vsub (listMaxQ (trips.filterMap (fun r => r.start_time)))
      (listMinQ (trips.filterMap (fun r => r.start_time))) with
  | some td => some (ratFloor (td / 1440) + 1)
  | none => none

def q6_bike_utilization (trips : List TripRow) : Q6Result :=
  let bikes := nuniqueStr (trips.map (fun r => r.bike_id))
  let date_range : Option ℤ := q6_dateRange trips
  let total_possible : Val :=
    match date_range with
    | some d => some ((bikes : ℚ) * 24 * 60 * (d : ℚ))
    | none => none
  let total_usage : ℚ := (trips.filterMap (fun r => r.duration_minutes)).sum
  let utilization_rate : ℚ :=
    match total_possible with
    | some p => if 0 < p then total_usage / p * 100 else 0
    | none => 0
  ⟨pyRound2 utilization_rate, bikes, date_range⟩

/-! ### `BikeShareSystem.q14_outlier_trips`. -/

/-- One entry of the outlier list returned by `q14_outlier_trips`. -/
structure OutlierEntry where
  trip_id : Option String
  duration_minutes : Val
  distance_km : Val
deriving DecidableEq

/-- Result record of `q14_outlier_trips`. -/
structure Q14Result where
  total_outliers : ℕ
  outliers : List OutlierEntry
deriving DecidableEq

/-- `trips[mask]`: keep the rows whose mask entry is `true`. -/
def maskFilter {α : Type} : List α → List Bool → List α
  | [], _ => []
  | _ :: _, [] => []
  | x :: xs, b :: bs => if b then x :: maskFilter xs bs else maskFilter xs bs

/-- `BikeShareSystem.q14_outlier_trips`: IQR masks over the duration and
distance columns (default multiplier 1.5), OR of the two masks, the full
count of flagged rows, and the first 20 flagged rows in table order.
`none` models the `IndexError` that `np.percentile` raises when a column
has no non-NaN entry. -/
def q14_outlier_trips (trips : List TripRow) : Option Q14Result :=
  let durations := trips.map (fun r => r.duration_minutes)
  let distances := trips.map (fun r => r.distance_km)
  match iqr_outliers durations (3/2), iqr_outliers distances (3/2) with
  | some (outlier_duration, _), some (outlier_distance, _) =>
    let combined := outlier_duration.zipWith (fun a b => a || b) outlier_distance
    let outliers := maskFilter trips combined
    let outlier_list := outliers.map
      (fun r => OutlierEntry.mk r.trip_id r.duration_minutes r.distance_km)
    some ⟨outlier_list.length, outlier_list.take 20⟩
  | _, _ => none

/-! ### `StatisticalAnalyzer.compute_statistics` (the spec's `describe`). -/

/-- A value of the statistics dictionary: a number, NaN, or the float
square root of a rational (used only for the standard deviation, whose
exact value is irrational in general). -/
inductive StatVal where
  | nan : StatVal
  | num (q : ℚ) : StatVal
  | sqrtOf (q : ℚ) : StatVal
deriving DecidableEq

/-- `np.median` = 50th linear-interpolation percentile. -/
def npMedian (l : List ℚ) : Option ℚ := percentile l 50

/-- `StatisticalAnalyzer.compute_statistics`, as the ordered key/value
dictionary it returns.  NaN entries of the input are removed first; on an
empty result the 8-key all-NaN/zero-count dictionary is returned (note:
the source's empty branch has no `"q90"` key).  `std` is the population
standard deviation `sqrt(mean((x - mean)^2))`, represented symbolically
by `StatVal.sqrtOf` of the (rational) population variance. -/
def compute_statistics (data : List Val) : List (String × StatVal) :=
  let d := data.filterMap id
  match d with
  | [] =>
    [("count", StatVal.num 0), ("mean", StatVal.nan), ("median", StatVal.nan),
     ("std", StatVal.nan), ("min", StatVal.nan), ("max", StatVal.nan),
     ("q25", StatVal.nan), ("q75", StatVal.nan)]
  | x :: xs =>
    let n : ℚ := (d.length : ℚ)
    let mean := d.sum / n
    let var := (d.map (fun v => (v - mean) * (v - mean))).sum / n
    [("count", StatVal.num d.length),
     ("mean", StatVal.num mean),
     ("median", StatVal.num ((npMedian d).getD 0)),
     ("std", StatVal.sqrtOf var),
     ("min", StatVal.num (xs.foldl min x)),
     ("max", StatVal.num (xs.foldl max x)),
     ("q25", StatVal.num ((percentile d 25).getD 0)),
     ("q75", StatVal.num ((percentile d 75).getD 0)),
     ("q90", StatVal.num ((percentile d 90).getD 0))]

/-! ### Claim-side formulations and concrete tables used to settle the
claims. -/

/-- Keys are pairwise distinct under `key` (pandas-level uniqueness of a
key column, NaN keys included). -/
def distinctKeys {α : Type} (key : α → Option String) (l : List α) : Prop :=
  l.Pairwise (fun a b => key a ≠ key b)

/-- Claim C2 as stated: every cleaned trip row has
`end_time > start_time` (both parsed, strictly increasing) and a numeric
`duration_minutes ≥ 1`. -/
def tripInvariantClaim : Prop :=
  ∀ (df : List TripRow) (r : TripRow), r ∈ clean_trips_csv df →
    vlt r.start_time r.end_time = true ∧ rowDurOk r = true

/-- Claim C3 as stated: no cleaned trip row has an unparsed/missing
`start_time` or `end_time`. -/
def tripTimestampClaim : Prop :=
  ∀ (df : List TripRow) (r : TripRow), r ∈ clean_trips_csv df →
    r.start_time.isSome = true ∧ r.end_time.isSome = true

/-- A raw trip row whose `end_time` equals its `start_time` (and which
passes every other cleaning rule). -/
def ceEqualTimes : TripRow :=
  ⟨some "T1", some "U1", some "member", some "B1", some "classic",
   some "S1", some "S2", some 0, some 0, some 5, some 1, some "completed"⟩

/-- A raw trip row with an unparsable `start_time` but an explicit
numeric duration (and which passes every other cleaning rule). -/
def ceNaTStart : TripRow :=
  ⟨some "T2", some "U2", some "casual", some "B2", some "electric",
   some "S1", some "S2", none, some 0, some 5, some 1, some "completed"⟩

/-- The value claim C7 states for the bike-utilization query:
`sum(duration_minutes) / (distinct_bike_count × 1440 × date_range_days) × 100`
with `date_range_days = ⌊max(start_time) − min(start_time) in days⌋ + 1`,
and 0 when the denominator is 0. -/
def c7_value (trips : List TripRow) : ℚ :=
  let sumDur := (trips.filterMap (fun r => r.duration_minutes)).sum
  let bikes := nuniqueStr (trips.map (fun r => r.bike_id))
  let starts := trips.filterMap (fun r => r.start_time)
  match vsub (listMaxQ starts) (listMinQ starts) with
  | some td =>
    let days : ℤ := ⌊td / 1440⌋ + 1
    let denom : ℚ := (bikes : ℚ) * 1440 * (days : ℚ)
    if denom = 0 then 0 else sumDur / denom * 100
  | none => 0

/-- Claim C7 as stated: on every non-empty cleaned trips table the
utilization percentage returned by `q6_bike_utilization` is exactly the
formula `c7_value` (unrounded). -/
def q6Claim : Prop :=
  ∀ df : List TripRow, clean_trips_csv df ≠ [] →
    (q6_bike_utilization (clean_trips_csv df)).utilization_percentage
      = c7_value (clean_trips_csv df)

/-- A raw trip row whose cleaned table makes the utilization rate a
value that Python `round(_, 2)` changes (5 minutes of use on 1 bike over
1 day: 500/1440 = 0.34722…). -/
def ceUtilRow : TripRow :=
  ⟨some "T3", some "U3", some "member", some "B3", some "classic",
   some "S1", some "S2", some 0, some 5, some 5, some 1, some "completed"⟩

/-- Per-row outlier flag of claim C8: outlier in duration (bounds `bd`)
or in distance (bounds `bk`), NaN comparing false. -/
def c8Flag (bd bk : IqrBounds) (r : TripRow) : Bool :=
  (vlt r.duration_minutes (some bd.lower_bound) ||
     vgt r.duration_minutes (some bd.upper_bound)) ||
  (vlt r.distance_km (some bk.lower_bound) ||
     vgt r.distance_km (some bk.upper_bound))

/-- A small trips table for the C8 witness. -/
def c8Table : List TripRow :=
  [⟨some "T4", some "U4", some "member", some "B4", some "classic",
    some "S1", some "S2", some 0, some 5, some 5, some 1, some "completed"⟩,
   ⟨some "T5", some "U4", some "member", some "B4", some "classic",
    some "S1", some "S2", some 10, some 15, some 5, some 2, some "completed"⟩]

/-- A station row passing every rule. -/
def stGood : StationRow :=
  ⟨some "S1", some "Main Street", some 10, some 40, some (-70)⟩

/-- A later duplicate of `stGood`'s id. -/
def stDup : StationRow :=
  ⟨some "S1", some "Main Street Annex", some 12, some 41, some (-71)⟩

/-- A station row with an out-of-range latitude. -/
def stBadLat : StationRow :=
  ⟨some "S2", some "North Pole Plus", some 10, some 100, some 0⟩

/-- The raw stations table for the C9 witness. -/
def c9Table : List StationRow := [stGood, stDup, stBadLat]

/-- A trips table with two dates (days 0 and 1) tied at one trip each,
for the C10 witness. -/
def c10Table : List TripRow :=
  [⟨some "T6", some "U6", some "member", some "B6", some "classic",
    some "S1", some "S2", some 1500, some 1505, some 5, some 1, some "completed"⟩,
   ⟨some "T7", some "U7", some "member", some "B7", some "classic",
    some "S1", some "S2", some 10, some 15, some 5, some 1, some "completed"⟩]

/-! ### General helper lemmas. -/

theorem map_eq_self_of {α : Type} (l : List α) (f : α → α)
    (h : ∀ a ∈ l, f a = a) : l.map f = l := by
  induction l with
  | nil => rfl
  | cons x xs ih =>
    simp only [List.map_cons, List.cons.injEq]
    exact ⟨h x (List.mem_cons_self x xs), ih (fun a ha => h a (List.mem_cons_of_mem x ha))⟩

theorem percentile_isSome (l : List ℚ) (hl : l ≠ []) (p : ℚ) :
    ∃ q, percentile l p = some q := by
  unfold percentile
  split
  case _ heq =>
    exfalso
    apply hl
    have hperm := List.perm_insertionSort (fun a b : ℚ => a ≤ b) l
    rw [heq] at hperm
    exact (List.Perm.eq_nil hperm.symm)
  case _ => exact ⟨_, rfl⟩

/-! ### Lemmas about `drop_duplicates`. -/

theorem mem_of_mem_dropDupAux {α : Type} (key : α → Option String) (r : α) :
    ∀ (l : List α) (seen : List (Option String)),
      r ∈ dropDupAux key seen l → r ∈ l := by
  intro l
  induction l with
  | nil => intro seen h; exact absurd h (List.not_mem_nil r)
  | cons x xs ih =>
    intro seen h
    unfold dropDupAux at h
    split at h
    · exact List.mem_cons_of_mem x (ih _ h)
    · rcases List.mem_cons.mp h with h0 | h0
      · exact h0 ▸ List.mem_cons_self x xs
      · exact List.mem_cons_of_mem x (ih _ h0)

theorem key_not_seen_of_mem_dropDupAux {α : Type} (key : α → Option String) (r : α) :
    ∀ (l : List α) (seen : List (Option String)),
      r ∈ dropDupAux key seen l → key r ∉ seen := by
  intro l
  induction l with
  | nil => intro seen h; exact absurd h (List.not_mem_nil r)
  | cons x xs ih =>
    intro seen h
    unfold dropDupAux at h
    split at h
    · exact ih _ h
    · rcases List.mem_cons.mp h with h0 | h0
      · subst h0; assumption
      · intro hc
        exact ih _ h0 (List.mem_cons_of_mem _ hc)

theorem find?_of_mem_dropDupAux {α : Type} (key : α → Option String) (r : α) :
    ∀ (l : List α) (seen : List (Option String)),
      r ∈ dropDupAux key seen l →
        l.find? (fun x => decide (key x = key r)) = some r := by
  intro l
  induction l with
  | nil => intro seen h; exact absurd h (List.not_mem_nil r)
  | cons x xs ih =>
    intro seen h
    unfold dropDupAux at h
    split at h
    case _ hseen =>
      have hne : key x ≠ key r := by
        intro he
        exact key_not_seen_of_mem_dropDupAux key r xs seen h (he ▸ hseen)
      rw [List.find?_cons, decide_eq_false hne]
      exact ih _ h
    case _ hseen =>
      rcases List.mem_cons.mp h with h0 | h0
      · subst h0
        rw [List.find?_cons]
        simp
      · have hnotin := key_not_seen_of_mem_dropDupAux key r xs _ h0
        have hne : key x ≠ key r := by
          intro he
          exact hnotin (he ▸ List.mem_cons_self _ _)
        rw [List.find?_cons, decide_eq_false hne]
        exact ih _ h0

theorem pairwise_dropDupAux {α : Type} (key : α → Option String) :
    ∀ (l : List α) (seen : List (Option String)),
      (dropDupAux key seen l).Pairwise (fun a b => key a ≠ key b) := by
  intro l
  induction l with
  | nil => intro seen; exact List.Pairwise.nil
  | cons x xs ih =>
    intro seen
    unfold dropDupAux
    split
    · exact ih _
    · refine List.pairwise_cons.mpr ⟨?_, ih _⟩
      intro r hr he
      exact key_not_seen_of_mem_dropDupAux key r xs _ hr
        (he ▸ List.mem_cons_self _ _)

theorem distinctKeys_drop_duplicates {α : Type} (key : α → Option String)
    (l : List α) : distinctKeys key (drop_duplicates key l) :=
  pairwise_dropDupAux key l []

theorem dropDupAux_eq_self {α : Type} (key : α → Option String) :
    ∀ (l : List α) (seen : List (Option String)),
      (∀ a ∈ l, key a ∉ seen) → distinctKeys key l →
        dropDupAux key seen l = l := by
  intro l
  induction l with
  | nil => intro seen _ _; rfl
  | cons x xs ih =>
    intro seen h1 h2
    unfold dropDupAux
    rw [if_neg (h1 x (List.mem_cons_self x xs))]
    obtain ⟨hx, hxs⟩ := List.pairwise_cons.mp h2
    have : dropDupAux key (key x :: seen) xs = xs := by
      refine ih _ ?_ hxs
      intro a ha
      intro hc
      rcases List.mem_cons.mp hc with h0 | h0
      · exact hx a ha h0.symm
      · exact h1 a (List.mem_cons_of_mem x ha) h0
    rw [this]

theorem drop_duplicates_eq_self {α : Type} (key : α → Option String)
    (l : List α) (h : distinctKeys key l) : drop_duplicates key l = l :=
  dropDupAux_eq_self key l [] (fun _ _ hc => absurd hc (List.not_mem_nil _)) h

theorem distinctKeys_filter {α : Type} (key : α → Option String)
    (p : α → Bool) (l : List α) (h : distinctKeys key l) :
    distinctKeys key (l.filter p) :=
  List.Pairwise.sublist (List.filter_sublist l) h

theorem distinctKeys_map {α : Type} (key : α → Option String) (f : α → α)
    (hf : ∀ a, key (f a) = key a) (l : List α) (h : distinctKeys key l) :
    distinctKeys key (l.map f) := by
  rw [distinctKeys, List.pairwise_map]
  exact h.imp (fun hab => by rw [hf, hf]; exact hab)

/-! ### Field-preservation lemmas for the two repair maps. -/

theorem fillDurRow_start_time (r : TripRow) : (fillDurRow r).start_time = r.start_time := by
  unfold fillDurRow; split <;> rfl

theorem fillDurRow_end_time (r : TripRow) : (fillDurRow r).end_time = r.end_time := by
  unfold fillDurRow; split <;> rfl

theorem fillDurRow_trip_id (r : TripRow) : (fillDurRow r).trip_id = r.trip_id := by
  unfold fillDurRow; split <;> rfl

theorem fillDurRow_ids (r : TripRow) : rowIdsOk (fillDurRow r) = rowIdsOk r := by
  unfold fillDurRow rowIdsOk; split <;> rfl

theorem fillDurRow_status (r : TripRow) : (fillDurRow r).status = r.status := by
  unfold fillDurRow; split <;> rfl

theorem fillDurRow_of_isSome (r : TripRow) (h : r.duration_minutes.isSome) :
    fillDurRow r = r := by
  unfold fillDurRow
  cases hd : r.duration_minutes with
  | some d => rfl
  | none => rw [hd] at h; exact absurd h (by simp)

theorem fillDistRow_duration (m : Val) (r : TripRow) :
    (fillDistRow m r).duration_minutes = r.duration_minutes := by
  unfold fillDistRow; split <;> rfl

theorem fillDistRow_durOk (m : Val) (r : TripRow) :
    rowDurOk (fillDistRow m r) = rowDurOk r := by
  unfold rowDurOk
  rw [fillDistRow_duration]

theorem fillDistRow_start_time (m : Val) (r : TripRow) :
    (fillDistRow m r).start_time = r.start_time := by
  unfold fillDistRow; split <;> rfl

theorem fillDistRow_end_time (m : Val) (r : TripRow) :
    (fillDistRow m r).end_time = r.end_time := by
  unfold fillDistRow; split <;> rfl

theorem fillDistRow_trip_id (m : Val) (r : TripRow) :
    (fillDistRow m r).trip_id = r.trip_id := by
  unfold fillDistRow; split <;> rfl

theorem fillDistRow_ids (m : Val) (r : TripRow) :
    rowIdsOk (fillDistRow m r) = rowIdsOk r := by
  unfold fillDistRow rowIdsOk; split <;> rfl

theorem fillDistRow_status (m : Val) (r : TripRow) :
    (fillDistRow m r).status = r.status := by
  unfold fillDistRow; split <;> rfl

theorem fillDistRow_of_isSome (m : Val) (r : TripRow)
    (h : r.distance_km.isSome) : fillDistRow m r = r := by
  unfold fillDistRow
  cases hd : r.distance_km with
  | some d => rfl
  | none => rw [hd] at h; exact absurd h (by simp)

theorem fillDistRow_none_of_none (m : Val) (r : TripRow)
    (h : r.distance_km = none) : fillDistRow m r = { r with distance_km := m } := by
  unfold fillDistRow
  rw [h]

theorem tripRow_update_dist_self (r : TripRow) (h : r.distance_km = none) :
    { r with distance_km := none } = r := by
  cases r
  simp only at h
  simp [h]

/-! ### Membership through the cleaning pipeline. -/

theorem mem_clean_trips_core {df : List TripRow} {r : TripRow}
    (h : r ∈ clean_trips_csv df) :
    rowDurOk r = true ∧ vlt r.end_time r.start_time = false ∧
      rowIdsOk r = true ∧ validStatus r.status = true := by
  unfold clean_trips_csv filterStatus at h
  obtain ⟨h6, hstat⟩ := List.mem_filter.mp h
  unfold fillDistance at h6
  obtain ⟨s, hs5, hsr⟩ := List.mem_map.mp h6
  unfold dropBadDuration at hs5
  obtain ⟨hs4, hdur⟩ := List.mem_filter.mp hs5
  unfold fillDuration at hs4
  obtain ⟨u, hu3, hus⟩ := List.mem_map.mp hs4
  unfold dropnaIds at hu3
  obtain ⟨hu2, hids⟩ := List.mem_filter.mp hu3
  have hu1 : u ∈ dropInvalidTimes df :=
    mem_of_mem_dropDupAux _ u _ _ hu2
  unfold dropInvalidTimes at hu1
  obtain ⟨_, htime⟩ := List.mem_filter.mp hu1
  have htime' : vlt u.end_time u.start_time = false := by
    revert htime
    cases vlt u.end_time u.start_time <;> simp
  subst hsr
  subst hus
  refine ⟨?_, ?_, ?_, hstat⟩
  · rw [fillDistRow_durOk]
    exact hdur
  · rw [fillDistRow_end_time, fillDistRow_start_time,
      fillDurRow_end_time, fillDurRow_start_time]
    exact htime'
  · rw [fillDistRow_ids, fillDurRow_ids]
    exact hids

/-! ### Claim C1. -/

/-- C1: `iqr_outliers` with multiplier 1.5 computes its bounds as
`[Q1 - 1.5·IQR, Q3 + 1.5·IQR]` from the linear-interpolation 25th/75th
percentiles of the non-NaN entries, the mask flags position `i` iff the
value there is a number strictly outside the bounds (so NaN positions
are `false`), and on `[1,…,9,100]` it yields Q1 = 3.25, Q3 = 7.75,
bounds (−3.5, 14.5) and flags only the value 100. -/
theorem C1_iqr_outliers_spec :
    (∀ data : List Val, data.filterMap id ≠ [] →
      ∃ mask b, iqr_outliers data (3/2) = some (mask, b) ∧
        percentile (data.filterMap id) 25 = some b.q1 ∧
        percentile (data.filterMap id) 75 = some b.q3 ∧
        b.iqr = b.q3 - b.q1 ∧
        b.lower_bound = b.q1 - 3/2 * b.iqr ∧
        b.upper_bound = b.q3 + 3/2 * b.iqr ∧
        mask.length = data.length ∧
        (∀ i : ℕ, i < data.length →
          (mask[i]? = some true ↔
            ∃ x : ℚ, data[i]? = some (some x) ∧
              (x < b.lower_bound ∨ b.upper_bound < x)))) ∧
    iqr_outliers (([1,2,3,4,5,6,7,8,9,100] : List ℚ).map some) (3/2)
      = some ([false,false,false,false,false,false,false,false,false,true],
              ⟨13/4, 31/4, 9/2, -7/2, 29/2⟩) := by
  constructor
  · intro data hne
    obtain ⟨q1, h25⟩ := percentile_isSome _ hne 25
    obtain ⟨q3, h75⟩ := percentile_isSome _ hne 75
    unfold iqr_outliers
    simp only [h25, h75]
    refine ⟨_, _, rfl, rfl, rfl, rfl, rfl, rfl, List.length_map data _, ?_⟩
    intro i hi
    rw [List.getElem?_map]
    have hv : data[i]? = some data[i] := List.getElem?_eq_getElem hi
    rw [hv]
    cases hval : data[i] with
    | none => simp [vlt, vgt]
    | some x => simp [vlt, vgt]
  · with_unfolding_all decide

/-- Witness for C1: the universally quantified part of
`C1_iqr_outliers_spec` applied at the concrete input `[1,…,9,100]`. -/
theorem C1_iqr_outliers_spec_witness :
    ((([1,2,3,4,5,6,7,8,9,100] : List ℚ).map some).filterMap id ≠ [] ∧
      ∃ mask b,
        iqr_outliers (([1,2,3,4,5,6,7,8,9,100] : List ℚ).map some) (3/2)
          = some (mask, b) ∧
        percentile ((([1,2,3,4,5,6,7,8,9,100] : List ℚ).map some).filterMap id) 25
          = some b.q1 ∧
        percentile ((([1,2,3,4,5,6,7,8,9,100] : List ℚ).map some).filterMap id) 75
          = some b.q3 ∧
        b.iqr = b.q3 - b.q1 ∧
        b.lower_bound = b.q1 - 3/2 * b.iqr ∧
        b.upper_bound = b.q3 + 3/2 * b.iqr ∧
        mask.length = (([1,2,3,4,5,6,7,8,9,100] : List ℚ).map some).length ∧
        (∀ i : ℕ, i < (([1,2,3,4,5,6,7,8,9,100] : List ℚ).map some).length →
          (mask[i]? = some true ↔
            ∃ x : ℚ, (([1,2,3,4,5,6,7,8,9,100] : List ℚ).map some)[i]? = some (some x) ∧
              (x < b.lower_bound ∨ b.upper_bound < x)))) :=
  ⟨by with_unfolding_all decide,
   C1_iqr_outliers_spec.1 _ (by with_unfolding_all decide)⟩

/-! ### Claim C5. -/

/-- C5 (refuting evaluation): on an empty cleaned trips table
`q14_outlier_trips` passes the empty duration column to
`OutlierDetection.iqr_outliers`, whose `np.percentile` call raises
`IndexError` on an empty array — modelled by the `none` result — instead
of returning a zero/empty structured result as the spec requires of
every query. -/
theorem C5_q14_empty_raises : q14_outlier_trips [] = none := rfl

/-! ### Claim C2. -/

/-- C2 (counterexample): the claimed invariant fails — a row whose
`end_time` equals its `start_time` survives `clean_trips_csv` (the code
only drops rows with `end_time < start_time`), so the cleaned table is
not guaranteed to satisfy `end_time > start_time`. -/
theorem C2_counterexample : ¬ tripInvariantClaim := by
  intro h
  have h2 := h [ceEqualTimes] ceEqualTimes (by with_unfolding_all decide)
  exact absurd h2.1 (by with_unfolding_all decide)

/-- C2 (amended): every row of a cleaned trips table has a numeric
`duration_minutes ≥ 1`, and no row has `end_time` strictly earlier than
`start_time`; rows with `end_time = start_time` or with unparsed
timestamps may remain. -/
theorem C2_amended_clean_trips :
    ∀ (df : List TripRow) (r : TripRow), r ∈ clean_trips_csv df →
      rowDurOk r = true ∧ vlt r.end_time r.start_time = false := by
  intro df r h
  obtain ⟨h1, h2, _, _⟩ := mem_clean_trips_core h
  exact ⟨h1, h2⟩

/-- Witness for C2's amended theorem at a concrete cleaned row. -/
theorem C2_amended_clean_trips_witness :
    ceEqualTimes ∈ clean_trips_csv [ceEqualTimes] ∧
      rowDurOk ceEqualTimes = true ∧
      vlt ceEqualTimes.end_time ceEqualTimes.start_time = false :=
  ⟨by with_unfolding_all decide,
   C2_amended_clean_trips [ceEqualTimes] ceEqualTimes (by with_unfolding_all decide)⟩

/-! ### Claim C3. -/

/-- C3 (counterexample): a row whose `start_time` is unparsable (NaT
after coercion) but which carries an explicit numeric duration survives
`clean_trips_csv` — the code never drops rows for unparsable timestamps
alone (`dropna` is not applied to the timestamp columns). -/
theorem C3_counterexample : ¬ tripTimestampClaim := by
  intro h
  have h2 := h [ceNaTStart] ceNaTStart (by with_unfolding_all decide)
  exact absurd h2.1 (by with_unfolding_all decide)

/-- C3 (amended): a row with an unparsable `start_time` or `end_time` is
dropped only when its `duration_minutes` is also missing (the
recomputation from timestamps yields NaN and the `≥ 1` filter drops the
row); a retained row with an unparsed timestamp always carries an
explicit numeric duration `≥ 1`. -/
theorem C3_amended_clean_trips :
    ∀ (df : List TripRow) (r : TripRow), r ∈ clean_trips_csv df →
      (r.start_time = none ∨ r.end_time = none) → rowDurOk r = true := by
  intro df r h _
  exact (mem_clean_trips_core h).1

/-- Witness for C3's amended theorem at a concrete cleaned row with an
unparsed `start_time`. -/
theorem C3_amended_clean_trips_witness :
    (ceNaTStart ∈ clean_trips_csv [ceNaTStart] ∧
      (ceNaTStart.start_time = none ∨ ceNaTStart.end_time = none)) ∧
      rowDurOk ceNaTStart = true :=
  ⟨⟨by with_unfolding_all decide, Or.inl rfl⟩,
   C3_amended_clean_trips [ceNaTStart] ceNaTStart
     (by with_unfolding_all decide) (Or.inl rfl)⟩

/-! ### Claim C6. -/

/-- C6: `compute_statistics` (the spec's `describe`) on an empty input
returns, without raising, a record with `count = 0` and a NaN or absent
(undefined) value for every other field of the stated shape; the spec's
field names p25/p75/p90 are the source's keys `"q25"`/`"q75"`/`"q90"`,
and the `"q90"` key is the one left undefined (absent) by the source's
empty branch. -/
theorem C6_describe_empty :
    List.lookup "count" (compute_statistics []) = some (StatVal.num 0) ∧
    List.lookup "mean" (compute_statistics []) = some StatVal.nan ∧
    List.lookup "median" (compute_statistics []) = some StatVal.nan ∧
    List.lookup "std" (compute_statistics []) = some StatVal.nan ∧
    List.lookup "min" (compute_statistics []) = some StatVal.nan ∧
    List.lookup "max" (compute_statistics []) = some StatVal.nan ∧
    List.lookup "q25" (compute_statistics []) = some StatVal.nan ∧
    List.lookup "q75" (compute_statistics []) = some StatVal.nan ∧
    List.lookup "q90" (compute_statistics []) = none := by
  with_unfolding_all decide

/-! ### Claim C9. -/

/-- C9: every row of a cleaned stations table has latitude in [−90, 90],
longitude in [−180, 180] and capacity > 0; the `station_id` keys are
pairwise distinct; and each cleaned row is the first row of the raw
table carrying its `station_id` (later duplicates dropped, first
occurrence kept). -/
theorem C9_stations_invariant :
    ∀ s : List StationRow,
      distinctKeys (fun x => x.station_id) (clean_stations_csv s) ∧
      ∀ r ∈ clean_stations_csv s,
        (∃ la, r.latitude = some la ∧ -90 ≤ la ∧ la ≤ 90) ∧
        (∃ lo, r.longitude = some lo ∧ -180 ≤ lo ∧ lo ≤ 180) ∧
        (∃ c, r.capacity = some c ∧ 0 < c) ∧
        s.find? (fun x => decide (x.station_id = r.station_id)) = some r := by
  intro s
  constructor
  · exact distinctKeys_filter _ _ _ (distinctKeys_filter _ _ _
      (distinctKeys_filter _ _ _ (distinctKeys_drop_duplicates _ s)))
  · intro r hr
    unfold clean_stations_csv at hr
    obtain ⟨hr3, hcap⟩ := List.mem_filter.mp hr
    obtain ⟨hr2, hcoord⟩ := List.mem_filter.mp hr3
    obtain ⟨hr1, _⟩ := List.mem_filter.mp hr2
    refine ⟨?_, ?_, ?_, find?_of_mem_dropDupAux _ r s [] hr1⟩
    · unfold coordsValid at hcoord
      cases hla : r.latitude with
      | none => rw [hla] at hcoord; cases hcoord
      | some la =>
        cases hlo : r.longitude with
        | none => rw [hla, hlo] at hcoord; cases hcoord
        | some lo =>
          rw [hla, hlo] at hcoord
          simp only [Bool.and_eq_true, decide_eq_true_eq] at hcoord
          exact ⟨la, rfl, hcoord.1.1.1, hcoord.1.1.2⟩
    · unfold coordsValid at hcoord
      cases hla : r.latitude with
      | none => rw [hla] at hcoord; cases hcoord
      | some la =>
        cases hlo : r.longitude with
        | none => rw [hla, hlo] at hcoord; cases hcoord
        | some lo =>
          rw [hla, hlo] at hcoord
          simp only [Bool.and_eq_true, decide_eq_true_eq] at hcoord
          exact ⟨lo, rfl, hcoord.1.2, hcoord.2⟩
    · unfold capacityPos at hcap
      cases hc : r.capacity with
      | none => rw [hc] at hcap; cases hcap
      | some c =>
        rw [hc] at hcap
        simp only [decide_eq_true_eq] at hcap
        exact ⟨c, rfl, hcap⟩

/-- Witness for C9: the concrete table `[stGood, stDup, stBadLat]`
cleans to `[stGood]`, and the theorem's row facts hold at `stGood`. -/
theorem C9_stations_invariant_witness :
    stGood ∈ clean_stations_csv c9Table ∧
      ((∃ la, stGood.latitude = some la ∧ -90 ≤ la ∧ la ≤ 90) ∧
       (∃ lo, stGood.longitude = some lo ∧ -180 ≤ lo ∧ lo ≤ 180) ∧
       (∃ c, stGood.capacity = some c ∧ 0 < c) ∧
       c9Table.find? (fun x => decide (x.station_id = stGood.station_id))
         = some stGood) :=
  ⟨by with_unfolding_all decide,
   (C9_stations_invariant c9Table).2 stGood (by with_unfolding_all decide)⟩

/-! ### Claim C4: idempotence machinery. -/

theorem rowDurOk_isSome (r : TripRow) (h : rowDurOk r = true) :
    r.duration_minutes.isSome = true := by
  unfold rowDurOk at h
  cases hd : r.duration_minutes with
  | some d => rfl
  | none => rw [hd] at h; cases h

theorem clean_trips_distinctKeys (df : List TripRow) :
    distinctKeys (fun r => r.trip_id) (clean_trips_csv df) := by
  unfold clean_trips_csv filterStatus fillDistance dropBadDuration fillDuration dropnaIds
  apply distinctKeys_filter
  apply distinctKeys_map _ _ (fun a => fillDistRow_trip_id _ a)
  apply distinctKeys_filter
  apply distinctKeys_map _ _ fillDurRow_trip_id
  apply distinctKeys_filter
  exact distinctKeys_drop_duplicates _ _

theorem fillDistance_all_or_none (l : List TripRow) :
    (∀ r ∈ fillDistance l, r.distance_km.isSome = true) ∨
    (∀ r ∈ fillDistance l, r.distance_km = none) := by
  by_cases hex : ∃ r ∈ l, r.distance_km.isSome = true
  · left
    obtain ⟨r0, hr0, hs⟩ := hex
    obtain ⟨q, hq⟩ : ∃ q, listMeanQ (l.filterMap (fun r => r.distance_km)) = some q := by
      have hne : l.filterMap (fun r => r.distance_km) ≠ [] := by
        intro h0
        have h1 := List.filterMap_eq_nil_iff.mp h0 r0 hr0
        rw [h1] at hs
        cases hs
      unfold listMeanQ
      split
      case _ heq => exact absurd heq hne
      case _ => exact ⟨_, rfl⟩
    intro r hr
    unfold fillDistance at hr
    obtain ⟨u, hu, hur⟩ := List.mem_map.mp hr
    subst hur
    rw [hq]
    unfold fillDistRow
    cases hd : u.distance_km with
    | some d => rw [hd]; rfl
    | none => rfl
  · right
    have hall : ∀ r ∈ l, r.distance_km = none := by
      intro r hr
      cases hd : r.distance_km with
      | some d =>
        exact absurd ⟨r, hr, by rw [hd]; rfl⟩ hex
      | none => rfl
    have hnil : l.filterMap (fun r => r.distance_km) = [] :=
      List.filterMap_eq_nil_iff.mpr hall
    intro r hr
    unfold fillDistance at hr
    obtain ⟨u, hu, hur⟩ := List.mem_map.mp hr
    subst hur
    rw [hnil]
    unfold fillDistRow
    rw [hall u hu]
    rfl

theorem clean_trips_dist_inv (df : List TripRow) :
    (∀ r ∈ clean_trips_csv df, r.distance_km.isSome = true) ∨
    (∀ r ∈ clean_trips_csv df, r.distance_km = none) := by
  have hsub : ∀ r ∈ clean_trips_csv df,
      r ∈ fillDistance (dropBadDuration (fillDuration (dropnaIds
        (drop_duplicates (fun r => r.trip_id) (dropInvalidTimes df))))) := by
    intro r hr
    unfold clean_trips_csv filterStatus at hr
    exact (List.mem_filter.mp hr).1
  rcases fillDistance_all_or_none (dropBadDuration (fillDuration (dropnaIds
      (drop_duplicates (fun r => r.trip_id) (dropInvalidTimes df))))) with h | h
  · exact Or.inl (fun r hr => h r (hsub r hr))
  · exact Or.inr (fun r hr => h r (hsub r hr))

theorem clean_trips_idem (df : List TripRow) :
    clean_trips_csv (clean_trips_csv df) = clean_trips_csv df := by
  have hcore := fun (r : TripRow) (hr : r ∈ clean_trips_csv df) =>
    mem_clean_trips_core hr
  have h1 : dropInvalidTimes (clean_trips_csv df) = clean_trips_csv df := by
    unfold dropInvalidTimes
    apply List.filter_eq_self.mpr
    intro r hr
    rw [(hcore r hr).2.1]
    rfl
  have h2 : drop_duplicates (fun r => r.trip_id) (clean_trips_csv df)
      = clean_trips_csv df :=
    drop_duplicates_eq_self _ _ (clean_trips_distinctKeys df)
  have h3 : dropnaIds (clean_trips_csv df) = clean_trips_csv df := by
    unfold dropnaIds
    exact List.filter_eq_self.mpr (fun r hr => (hcore r hr).2.2.1)
  have h4 : fillDuration (clean_trips_csv df) = clean_trips_csv df := by
    unfold fillDuration
    exact map_eq_self_of _ _ (fun r hr =>
      fillDurRow_of_isSome r (rowDurOk_isSome r (hcore r hr).1))
  have h5 : dropBadDuration (clean_trips_csv df) = clean_trips_csv df := by
    unfold dropBadDuration
    exact List.filter_eq_self.mpr (fun r hr => (hcore r hr).1)
  have h6 : fillDistance (clean_trips_csv df) = clean_trips_csv df := by
    rcases clean_trips_dist_inv df with hall | hall
    · unfold fillDistance
      exact map_eq_self_of _ _ (fun r hr => fillDistRow_of_isSome _ r (hall r hr))
    · unfold fillDistance
      have hnil : (clean_trips_csv df).filterMap (fun r => r.distance_km) = [] :=
        List.filterMap_eq_nil_iff.mpr hall
      rw [hnil]
      apply map_eq_self_of
      intro r hr
      rw [fillDistRow_none_of_none _ r (hall r hr)]
      exact tripRow_update_dist_self r (hall r hr)
  have h7 : filterStatus (clean_trips_csv df) = clean_trips_csv df := by
    unfold filterStatus
    exact List.filter_eq_self.mpr (fun r hr => (hcore r hr).2.2.2)
  show filterStatus (fillDistance (dropBadDuration (fillDuration (dropnaIds
    (drop_duplicates (fun r => r.trip_id) (dropInvalidTimes (clean_trips_csv df)))))))
      = clean_trips_csv df
  rw [h1, h2, h3, h4, h5, h6, h7]

theorem clean_stations_idem (s : List StationRow) :
    clean_stations_csv (clean_stations_csv s) = clean_stations_csv s := by
  have hmem : ∀ r ∈ clean_stations_csv s,
      stationComplete r = true ∧ coordsValid r = true ∧ capacityPos r = true := by
    intro r hr
    unfold clean_stations_csv at hr
    obtain ⟨hr3, hcap⟩ := List.mem_filter.mp hr
    obtain ⟨hr2, hcoord⟩ := List.mem_filter.mp hr3
    obtain ⟨_, hcomp⟩ := List.mem_filter.mp hr2
    exact ⟨hcomp, hcoord, hcap⟩
  have hd : distinctKeys (fun x => x.station_id) (clean_stations_csv s) := by
    unfold clean_stations_csv
    exact distinctKeys_filter _ _ _ (distinctKeys_filter _ _ _
      (distinctKeys_filter _ _ _ (distinctKeys_drop_duplicates _ s)))
  have h1 : drop_duplicates (fun x => x.station_id) (clean_stations_csv s)
      = clean_stations_csv s := drop_duplicates_eq_self _ _ hd
  have h2 : (clean_stations_csv s).filter stationComplete = clean_stations_csv s :=
    List.filter_eq_self.mpr (fun r hr => (hmem r hr).1)
  have h3 : (clean_stations_csv s).filter coordsValid = clean_stations_csv s :=
    List.filter_eq_self.mpr (fun r hr => (hmem r hr).2.1)
  have h4 : (clean_stations_csv s).filter capacityPos = clean_stations_csv s :=
    List.filter_eq_self.mpr (fun r hr => (hmem r hr).2.2)
  show (((drop_duplicates (fun x => x.station_id) (clean_stations_csv s)).filter
      stationComplete).filter coordsValid).filter capacityPos = clean_stations_csv s
  rw [h1, h2, h3, h4]

theorem clean_maintenance_idem (m : List MaintRow) :
    clean_maintenance_csv (clean_maintenance_csv m) = clean_maintenance_csv m := by
  have hmem : ∀ r ∈ clean_maintenance_csv m,
      maintComplete r = true ∧ validMaintType r.maintenance_type = true ∧
        costNonneg r = true := by
    intro r hr
    unfold clean_maintenance_csv at hr
    obtain ⟨hr3, hcost⟩ := List.mem_filter.mp hr
    obtain ⟨hr2, htype⟩ := List.mem_filter.mp hr3
    obtain ⟨_, hcomp⟩ := List.mem_filter.mp hr2
    exact ⟨hcomp, htype, hcost⟩
  have hd : distinctKeys (fun x => x.record_id) (clean_maintenance_csv m) := by
    unfold clean_maintenance_csv
    exact distinctKeys_filter _ _ _ (distinctKeys_filter _ _ _
      (distinctKeys_filter _ _ _ (distinctKeys_drop_duplicates _ m)))
  have h1 : drop_duplicates (fun x => x.record_id) (clean_maintenance_csv m)
      = clean_maintenance_csv m := drop_duplicates_eq_self _ _ hd
  have h2 : (clean_maintenance_csv m).filter maintComplete = clean_maintenance_csv m :=
    List.filter_eq_self.mpr (fun r hr => (hmem r hr).1)
  have h3 : (clean_maintenance_csv m).filter
      (fun r => validMaintType r.maintenance_type) = clean_maintenance_csv m :=
    List.filter_eq_self.mpr (fun r hr => (hmem r hr).2.1)
  have h4 : (clean_maintenance_csv m).filter costNonneg = clean_maintenance_csv m :=
    List.filter_eq_self.mpr (fun r hr => (hmem r hr).2.2)
  show (((drop_duplicates (fun x => x.record_id) (clean_maintenance_csv m)).filter
      maintComplete).filter (fun r => validMaintType r.maintenance_type)).filter
        costNonneg = clean_maintenance_csv m
  rw [h1, h2, h3, h4]

/-- C4: cleaning is idempotent — re-running `clean_trips_csv`,
`clean_stations_csv` or `clean_maintenance_csv` on its own output
returns the same table, with no further rows dropped or values
changed. -/
theorem C4_cleaning_idempotent :
    ∀ (t : List TripRow) (s : List StationRow) (m : List MaintRow),
      clean_trips_csv (clean_trips_csv t) = clean_trips_csv t ∧
      clean_stations_csv (clean_stations_csv s) = clean_stations_csv s ∧
      clean_maintenance_csv (clean_maintenance_csv m) = clean_maintenance_csv m :=
  fun t s m => ⟨clean_trips_idem t, clean_stations_idem s, clean_maintenance_idem m⟩

/-! ### Claim C7. -/

theorem foldl_min_le_init (xs : List ℚ) : ∀ x : ℚ, xs.foldl min x ≤ x := by
  induction xs with
  | nil => intro x; exact le_refl x
  | cons y ys ih =>
    intro x
    exact le_trans (ih (min x y)) (min_le_left x y)

theorem init_le_foldl_max (xs : List ℚ) : ∀ x : ℚ, x ≤ xs.foldl max x := by
  induction xs with
  | nil => intro x; exact le_refl x
  | cons y ys ih =>
    intro x
    exact le_trans (le_max_left x y) (ih (max x y))

/-- C7 (counterexample): the claim fails as stated because
`q6_bike_utilization` rounds the utilization rate with Python
`round(_, 2)` before returning it — one 5-minute trip on one bike over
one day gives the formula value 500/1440 = 25/72 ≈ 0.3472 but the query
returns 0.35. -/
theorem C7_counterexample : ¬ q6Claim := by
  intro h
  have h2 := h [ceUtilRow] (by with_unfolding_all decide)
  exact absurd h2 (by with_unfolding_all decide)

/-- C7 (amended): on a cleaned-style trips table with at least one
parsed `start_time` and one non-missing `bike_id`, the utilization
percentage is the claimed formula
`sum(duration)/(distinct_bikes × 1440 × date_range_days) × 100` with
`date_range_days = ⌊max(start) − min(start) in days⌋ + 1`, rounded to 2
decimals by Python `round`; and on an empty table the query returns the
0-valued record (the denominator guard). -/
theorem C7_amended_q6 :
    (∀ trips : List TripRow,
      (∃ r ∈ trips, r.start_time.isSome = true) →
      (∃ r ∈ trips, r.bike_id.isSome = true) →
      (q6_bike_utilization trips).utilization_percentage = pyRound2 (c7_value trips) ∧
      (q6_bike_utilization trips).bikes_in_fleet
        = nuniqueStr (trips.map (fun r => r.bike_id)) ∧
      ∃ d : ℤ, (q6_bike_utilization trips).date_range_days = some d ∧ 1 ≤ d) ∧
    q6_bike_utilization [] = ⟨0, 0, none⟩ := by
  constructor
  · intro trips h1 h2
    cases hstart : trips.filterMap (fun r => r.start_time) with
    | nil =>
      exfalso
      obtain ⟨r0, hr0, hs⟩ := h1
      obtain ⟨t0, ht0⟩ := Option.isSome_iff_exists.mp hs
      have hmem : t0 ∈ trips.filterMap (fun r => r.start_time) :=
        List.mem_filterMap.mpr ⟨r0, hr0, ht0⟩
      rw [hstart] at hmem
      exact List.not_mem_nil t0 hmem
    | cons x xs =>
      have hmm : xs.foldl min x ≤ xs.foldl max x :=
        le_trans (foldl_min_le_init xs x) (init_le_foldl_max xs x)
      have hfloor : (0:ℤ) ≤ ⌊(xs.foldl max x - xs.foldl min x) / 1440⌋ := by
        apply Int.floor_nonneg.mpr
        apply div_nonneg (by linarith) (by norm_num)
      have hbikes : 1 ≤ nuniqueStr (trips.map (fun r => r.bike_id)) := by
        obtain ⟨r0, hr0, hb⟩ := h2
        obtain ⟨b0, hb0⟩ := Option.isSome_iff_exists.mp hb
        have hmem : b0 ∈ (trips.map (fun r => r.bike_id)).filterMap id := by
          apply List.mem_filterMap.mpr
          exact ⟨some b0, List.mem_map.mpr ⟨r0, hr0, hb0⟩, rfl⟩
        have hmem2 : b0 ∈ ((trips.map (fun r => r.bike_id)).filterMap id).dedup :=
          List.mem_dedup.mpr hmem
        exact List.length_pos.mpr (List.ne_nil_of_mem hmem2)
      have hbq : (0:ℚ) < (nuniqueStr (trips.map (fun r => r.bike_id)) : ℚ) := by
        exact_mod_cast lt_of_lt_of_le Nat.zero_lt_one hbikes
      have hdq : (0:ℚ) <
          ((⌊(xs.foldl max x - xs.foldl min x) / 1440⌋ + 1 : ℤ) : ℚ) := by
        have h0 : (0:ℤ) < ⌊(xs.foldl max x - xs.foldl min x) / 1440⌋ + 1 := by omega
        exact_mod_cast h0
      have hp : (0:ℚ) < (nuniqueStr (trips.map (fun r => r.bike_id)) : ℚ) * 24 * 60 *
          ((⌊(xs.foldl max x - xs.foldl min x) / 1440⌋ + 1 : ℤ) : ℚ) := by
        have h24 : (0:ℚ) < 24 := by norm_num
        have h60 : (0:ℚ) < 60 := by norm_num
        exact mul_pos (mul_pos (mul_pos hbq h24) h60) hdq
      have hp2 : (0:ℚ) < (nuniqueStr (trips.map (fun r => r.bike_id)) : ℚ) * 1440 *
          ((⌊(xs.foldl max x - xs.foldl min x) / 1440⌋ + 1 : ℤ) : ℚ) := by
        have h1440 : (0:ℚ) < 1440 := by norm_num
        exact mul_pos (mul_pos hbq h1440) hdq
      have hdr : q6_dateRange trips
          = some (⌊(xs.foldl max x - xs.foldl min x) / 1440⌋ + 1) := by
        unfold q6_dateRange
        rw [hstart]
        simp only [listMaxQ, listMinQ, vsub, ratFloor_eq_floor]
      simp only [q6_bike_utilization, c7_value, hdr, hstart,
        listMaxQ, listMinQ, vsub, ratFloor_eq_floor]
      rw [if_pos hp, if_neg (ne_of_gt hp2)]
      refine ⟨?_, trivial, ⟨_, rfl, by omega⟩⟩
      rw [show (nuniqueStr (trips.map (fun r => r.bike_id)) : ℚ) * 24 * 60 *
          ((⌊(xs.foldl max x - xs.foldl min x) / 1440⌋ + 1 : ℤ) : ℚ)
          = (nuniqueStr (trips.map (fun r => r.bike_id)) : ℚ) * 1440 *
          ((⌊(xs.foldl max x - xs.foldl min x) / 1440⌋ + 1 : ℤ) : ℚ) from by ring]
  · with_unfolding_all decide

/-- Witness for C7's amended theorem at the one-row table `[ceUtilRow]`. -/
theorem C7_amended_q6_witness :
    ((∃ r ∈ [ceUtilRow], r.start_time.isSome = true) ∧
     (∃ r ∈ [ceUtilRow], r.bike_id.isSome = true)) ∧
    ((q6_bike_utilization [ceUtilRow]).utilization_percentage
        = pyRound2 (c7_value [ceUtilRow]) ∧
      (q6_bike_utilization [ceUtilRow]).bikes_in_fleet
        = nuniqueStr ([ceUtilRow].map (fun r => r.bike_id)) ∧
      ∃ d : ℤ, (q6_bike_utilization [ceUtilRow]).date_range_days = some d ∧ 1 ≤ d) :=
  ⟨⟨by with_unfolding_all decide, by with_unfolding_all decide⟩,
   C7_amended_q6.1 [ceUtilRow] (by with_unfolding_all decide)
     (by with_unfolding_all decide)⟩

/-! ### Claim C8. -/

theorem zipWith_or_map {α : Type} (f g : α → Bool) (l : List α) :
    (l.map f).zipWith (fun a b => a || b) (l.map g) = l.map (fun x => f x || g x) := by
  induction l with
  | nil => rfl
  | cons x xs ih => simp [ih]

theorem maskFilter_map {α : Type} (p : α → Bool) (l : List α) :
    maskFilter l (l.map p) = l.filter p := by
  induction l with
  | nil => rfl
  | cons x xs ih =>
    cases hp : p x <;> simp [maskFilter, List.filter_cons, hp, ih]

/-- C8: `q14_outlier_trips` flags a trip iff it is an IQR outlier in
`duration_minutes` or in `distance_km` (logical OR of the two masks
computed independently), reports `total_outliers` as the count of all
flagged trips (not capped at 20), and lists at most the first 20 flagged
trips in original table order.  The hypotheses require each column to
have a non-NaN entry (otherwise `np.percentile` raises, see C5). -/
theorem C8_q14_outliers :
    ∀ trips : List TripRow,
      trips.filterMap (fun r => r.duration_minutes) ≠ [] →
      trips.filterMap (fun r => r.distance_km) ≠ [] →
      ∃ (res : Q14Result) (maskd maskk : List Bool) (bd bk : IqrBounds),
        iqr_outliers (trips.map (fun r => r.duration_minutes)) (3/2)
          = some (maskd, bd) ∧
        iqr_outliers (trips.map (fun r => r.distance_km)) (3/2)
          = some (maskk, bk) ∧
        q14_outlier_trips trips = some res ∧
        res.total_outliers = (trips.filter (c8Flag bd bk)).length ∧
        res.outliers = ((trips.filter (c8Flag bd bk)).map
          (fun r => OutlierEntry.mk r.trip_id r.duration_minutes r.distance_km)).take 20 := by
  intro trips hd hk
  have hfmd : (trips.map (fun r => r.duration_minutes)).filterMap id
      = trips.filterMap (fun r => r.duration_minutes) := by
    rw [List.filterMap_map]
    rfl
  have hfmk : (trips.map (fun r => r.distance_km)).filterMap id
      = trips.filterMap (fun r => r.distance_km) := by
    rw [List.filterMap_map]
    rfl
  obtain ⟨q1d, h1d⟩ := percentile_isSome _ hd 25
  obtain ⟨q3d, h3d⟩ := percentile_isSome _ hd 75
  obtain ⟨q1k, h1k⟩ := percentile_isSome _ hk 25
  obtain ⟨q3k, h3k⟩ := percentile_isSome _ hk 75
  have hid : iqr_outliers (trips.map (fun r => r.duration_minutes)) (3/2)
      = some (trips.map (fun r =>
            vlt r.duration_minutes (some (q1d - 3/2 * (q3d - q1d))) ||
              vgt r.duration_minutes (some (q3d + 3/2 * (q3d - q1d)))),
          ⟨q1d, q3d, q3d - q1d, q1d - 3/2 * (q3d - q1d), q3d + 3/2 * (q3d - q1d)⟩) := by
    unfold iqr_outliers
    simp only [hfmd, h1d, h3d, List.map_map]
    rfl
  have hik : iqr_outliers (trips.map (fun r => r.distance_km)) (3/2)
      = some (trips.map (fun r =>
            vlt r.distance_km (some (q1k - 3/2 * (q3k - q1k))) ||
              vgt r.distance_km (some (q3k + 3/2 * (q3k - q1k)))),
          ⟨q1k, q3k, q3k - q1k, q1k - 3/2 * (q3k - q1k), q3k + 3/2 * (q3k - q1k)⟩) := by
    unfold iqr_outliers
    simp only [hfmk, h1k, h3k, List.map_map]
    rfl
  have hq14 : q14_outlier_trips trips = some
      ⟨((trips.filter (c8Flag
          ⟨q1d, q3d, q3d - q1d, q1d - 3/2 * (q3d - q1d), q3d + 3/2 * (q3d - q1d)⟩
          ⟨q1k, q3k, q3k - q1k, q1k - 3/2 * (q3k - q1k), q3k + 3/2 * (q3k - q1k)⟩)).map
            (fun r => OutlierEntry.mk r.trip_id r.duration_minutes r.distance_km)).length,
        ((trips.filter (c8Flag
          ⟨q1d, q3d, q3d - q1d, q1d - 3/2 * (q3d - q1d), q3d + 3/2 * (q3d - q1d)⟩
          ⟨q1k, q3k, q3k - q1k, q1k - 3/2 * (q3k - q1k), q3k + 3/2 * (q3k - q1k)⟩)).map
            (fun r => OutlierEntry.mk r.trip_id r.duration_minutes r.distance_km)).take 20⟩ := by
    unfold q14_outlier_trips
    simp only [hid, hik, zipWith_or_map, maskFilter_map]
    rfl
  refine ⟨_, _, _, _, _, hid, hik, hq14, ?_, rfl⟩
  simp [List.length_map]

/-- Witness for C8 at the two-row table `c8Table`. -/
theorem C8_q14_outliers_witness :
    (c8Table.filterMap (fun r => r.duration_minutes) ≠ [] ∧
     c8Table.filterMap (fun r => r.distance_km) ≠ []) ∧
    (∃ (res : Q14Result) (maskd maskk : List Bool) (bd bk : IqrBounds),
      iqr_outliers (c8Table.map (fun r => r.duration_minutes)) (3/2)
        = some (maskd, bd) ∧
      iqr_outliers (c8Table.map (fun r => r.distance_km)) (3/2)
        = some (maskk, bk) ∧
      q14_outlier_trips c8Table = some res ∧
      res.total_outliers = (c8Table.filter (c8Flag bd bk)).length ∧
      res.outliers = ((c8Table.filter (c8Flag bd bk)).map
        (fun r => OutlierEntry.mk r.trip_id r.duration_minutes r.distance_km)).take 20) :=
  ⟨⟨by with_unfolding_all decide, by with_unfolding_all decide⟩,
   C8_q14_outliers c8Table (by with_unfolding_all decide)
     (by with_unfolding_all decide)⟩

/-! ### Claim C10. -/

theorem foldl_argmax (f : ℤ → ℕ) :
    ∀ (ks : List ℤ) (k : ℤ),
      (k :: ks).Sorted (fun a b => a ≤ b) →
      ((ks.foldl (fun b d => if f b < f d then d else b) k) ∈ k :: ks ∧
       (∀ e ∈ k :: ks, f e ≤ f (ks.foldl (fun b d => if f b < f d then d else b) k)) ∧
       (∀ e ∈ k :: ks, f e = f (ks.foldl (fun b d => if f b < f d then d else b) k) →
         ks.foldl (fun b d => if f b < f d then d else b) k ≤ e)) := by
  intro ks
  induction ks with
  | nil =>
    intro k _
    refine ⟨List.mem_cons_self _ _, ?_, ?_⟩
    · intro e he
      rw [List.mem_singleton] at he
      subst he
      exact le_refl _
    · intro e he _
      rw [List.mem_singleton] at he
      subst he
      exact le_refl _
  | cons d ds ih =>
    intro k hs
    rw [List.foldl_cons]
    obtain ⟨hk_all, hs_tail⟩ := List.sorted_cons.mp hs
    obtain ⟨hd_all, hs_ds⟩ := List.sorted_cons.mp hs_tail
    have hkd : k ≤ d := hk_all d (List.mem_cons_self _ _)
    by_cases hfd : f k < f d
    · rw [if_pos hfd]
      obtain ⟨hmem, hbound, htie⟩ := ih d hs_tail
      refine ⟨List.mem_cons_of_mem k hmem, ?_, ?_⟩
      · intro e he
        rcases List.mem_cons.mp he with he0 | he0
        · subst he0
          exact le_of_lt (lt_of_lt_of_le hfd (hbound d (List.mem_cons_self _ _)))
        · exact hbound e he0
      · intro e he h0
        rcases List.mem_cons.mp he with he0 | he0
        · subst he0
          exact absurd h0
            (ne_of_lt (lt_of_lt_of_le hfd (hbound d (List.mem_cons_self _ _))))
        · exact htie e he0 h0
    · rw [if_neg hfd]
      have hs' : (k :: ds).Sorted (fun a b : ℤ => a ≤ b) := by
        rw [List.sorted_cons]
        exact ⟨fun b hb => hk_all b (List.mem_cons_of_mem d hb), hs_ds⟩
      obtain ⟨hmem, hbound, htie⟩ := ih k hs'
      have hfd2 : f d ≤ f k := le_of_not_lt hfd
      refine ⟨?_, ?_, ?_⟩
      · rcases List.mem_cons.mp hmem with h0 | h0
        · rw [h0]; exact List.mem_cons_self _ _
        · exact List.mem_cons_of_mem k (List.mem_cons_of_mem d h0)
      · intro e he
        rcases List.mem_cons.mp he with he0 | he0
        · subst he0
          exact hbound e (List.mem_cons_self _ _)
        · rcases List.mem_cons.mp he0 with he1 | he1
          · subst he1
            exact le_trans hfd2 (hbound k (List.mem_cons_self _ _))
          · exact hbound e (List.mem_cons_of_mem k he1)
      · intro e he h0
        rcases List.mem_cons.mp he with he0 | he0
        · subst he0
          exact htie e (List.mem_cons_self _ _) h0
        · rcases List.mem_cons.mp he0 with he1 | he1
          · subst he1
            have hkb := hbound k (List.mem_cons_self _ _)
            have hkk : f k = f (ds.foldl (fun b d => if f b < f d then d else b) k) :=
              le_antisymm hkb (by rw [← h0]; exact hfd2)
            exact le_trans (htie k (List.mem_cons_self _ _) hkk) hkd
          · exact htie e (List.mem_cons_of_mem k he1) h0

/-- C10: on any trips table with at least one parsed `start_time`,
`q4_peak_day` returns a date `d` present in the data whose trip count is
maximal, together with its weekday name and that count; and whenever
another date ties the maximal count, `d` is the earlier one (the
groupby sorts dates ascending and `idxmax` takes the first maximum), so
the result is a deterministic function of the table contents. -/
theorem C10_peak_day :
    ∀ trips : List TripRow, tripDates trips ≠ [] →
      ∃ d : ℤ,
        q4_peak_day trips = ⟨some d, some (dayName d), (tripDates trips).count d⟩ ∧
        d ∈ tripDates trips ∧
        (∀ e ∈ tripDates trips,
          (tripDates trips).count e ≤ (tripDates trips).count d) ∧
        (∀ e ∈ tripDates trips,
          (tripDates trips).count e = (tripDates trips).count d → d ≤ e) := by
  intro trips hne
  cases hsorted : (tripDates trips).dedup.insertionSort (fun a b => a ≤ b) with
  | nil =>
    exfalso
    have hperm := List.perm_insertionSort (fun a b : ℤ => a ≤ b) (tripDates trips).dedup
    rw [hsorted] at hperm
    exact hne ((List.dedup_eq_nil _).mp (List.Perm.eq_nil hperm.symm))
  | cons k ks =>
    have hsort : (k :: ks).Sorted (fun a b : ℤ => a ≤ b) := by
      rw [← hsorted]
      exact List.sorted_insertionSort _ _
    obtain ⟨hmem, hbound, htie⟩ :=
      foldl_argmax ((tripDates trips).count) ks k hsort
    have hiff : ∀ e : ℤ, e ∈ k :: ks ↔ e ∈ tripDates trips := by
      intro e
      rw [← hsorted, (List.perm_insertionSort _ _).mem_iff, List.mem_dedup]
    refine ⟨ks.foldl (fun b d =>
        if (tripDates trips).count b < (tripDates trips).count d then d else b) k,
      ?_, (hiff _).mp hmem,
      fun e he => hbound e ((hiff e).mpr he),
      fun e he h0 => htie e ((hiff e).mpr he) h0⟩
    simp only [q4_peak_day]
    rw [hsorted]

/-- Witness for C10 at `c10Table`, whose two trips fall on day 1 and
day 0 with tied counts. -/
theorem C10_peak_day_witness :
    tripDates c10Table ≠ [] ∧
      ∃ d : ℤ,
        q4_peak_day c10Table
          = ⟨some d, some (dayName d), (tripDates c10Table).count d⟩ ∧
        d ∈ tripDates c10Table ∧
        (∀ e ∈ tripDates c10Table,
          (tripDates c10Table).count e ≤ (tripDates c10Table).count d) ∧
        (∀ e ∈ tripDates c10Table,
          (tripDates c10Table).count e = (tripDates c10Table).count d → d ≤ e) :=
  ⟨by with_unfolding_all decide,
   C10_peak_day c10Table (by with_unfolding_all decide)⟩

end CityBike
